import Mathlib

/-!
# Verification of the wasm_plugin host/guest calling convention

A shallow embedding of the wasm_plugin crates (host `src/host/src/lib.rs`,
guest `src/guest/src/lib.rs`, derive macro `src/guest/guest_derive/src/lib.rs`,
serialization `src/host/src/serialization.rs`), together with proofs of the
specification's claims about the calling convention, the Locator encoding,
the message-buffer lifecycle and the garbage accounting.

Machine integers are modelled as `Nat` with explicit `% 2 ^ w` where the
source masks or truncates; a Rust panic is modelled as the `PanicOr.panic`
value, distinct from an `Except.error` (a returned error value).
-/

/-! ## FatPointer (host `src/host/src/lib.rs` lines 92-99, bitfield macro)

The bitfield declaration `ptr, set_ptr: 31, 0; len, set_len: 63, 32` over a
`u64` expands to getters that shift and mask, and to setters that clear the
field's bits and or in the masked new value.  On a `Nat` kept below `2 ^ 64`
those bit operations are the arithmetic below. -/

/-- Getter for bits 31..0 of a host `FatPointer` value. -/
def hostPtr (v : Nat) : Nat := v % 2 ^ 32

/-- Getter for bits 63..32 of a host `FatPointer` value (`v < 2 ^ 64`). -/
def hostLen (v : Nat) : Nat := v / 2 ^ 32 % 2 ^ 32

/-- Setter for bits 31..0 of a host `FatPointer`: clears the low 32 bits and
ors in `x` masked to 32 bits. -/
def hostSetPtr (v x : Nat) : Nat := v / 2 ^ 32 * 2 ^ 32 + x % 2 ^ 32

/-- Setter for bits 63..32 of a host `FatPointer`: keeps the low 32 bits and
stores `x` masked to 32 bits in the high half. -/
def hostSetLen (v x : Nat) : Nat := x % 2 ^ 32 * 2 ^ 32 + v % 2 ^ 32

/-! The guest crate (`src/guest/src/lib.rs` lines 27-35) declares exactly the
same bitfield over a `u64`; its operations are embedded separately so host
and guest can be compared. -/

/-- Getter for bits 31..0 of a guest `FatPointer` value. -/
def guestPtr (v : Nat) : Nat := v % 2 ^ 32

/-- Getter for bits 63..32 of a guest `FatPointer` value. -/
def guestLen (v : Nat) : Nat := v / 2 ^ 32 % 2 ^ 32

/-- Setter for bits 31..0 of a guest `FatPointer`. -/
def guestSetPtr (v x : Nat) : Nat := v / 2 ^ 32 * 2 ^ 32 + x % 2 ^ 32

/-- Setter for bits 63..32 of a guest `FatPointer`. -/
def guestSetLen (v x : Nat) : Nat := x % 2 ^ 32 * 2 ^ 32 + v % 2 ^ 32

/-- The packing sequence both sides use: `let mut fat = FatPointer(0);
fat.set_ptr(p); fat.set_len(l);`. -/
def packFatPointer (p l : Nat) : Nat := hostSetLen (hostSetPtr 0 p) l

/-! ## Name mangling

Host side (`src/host/src/lib.rs`): `WasmPluginBuilder::import` inserts host
functions under `format!("wasm_plugin_imported__{}", name)` (line 205), and
`WasmPluginInner::call_function_raw` resolves guest exports via
`format!("wasm_plugin_exported__{}", fn_name)` (line 699).

Guest side (`src/guest/guest_derive/src/lib.rs`): `impl_function_export`
emits the adapter under `format_ident!("wasm_plugin_exported__{}", name)`
and `impl_import_functions` declares the extern under
`format_ident!("wasm_plugin_imported__{}", f.ident)`. -/

/-- Name under which the host dispatcher looks up a guest export. -/
def hostExportedName (name : String) : String := "wasm_plugin_exported__" ++ name

/-- Name under which the host builder registers an imported function. -/
def hostImportedName (name : String) : String := "wasm_plugin_imported__" ++ name

/-- Name under which the guest derive macro exports the generated adapter. -/
def guestExportedName (name : String) : String := "wasm_plugin_exported__" ++ name

/-- Name of the extern the guest derive macro binds for an imported function. -/
def guestImportedName (name : String) : String := "wasm_plugin_imported__" ++ name

/-! ## Panic-aware results

Host code paths that can only end by unwinding (slice indexing out of range,
`unwrap` on a lookup failure, an explicit unconditional diverging branch) are
embedded with `PanicOr.panic`; a value returned normally is `PanicOr.ok`. -/

/-- Outcome of a host operation that may unwind instead of returning. -/
inductive PanicOr (α : Type) where
  | panic : PanicOr α
  | ok : α → PanicOr α
deriving Repr, DecidableEq

/-- The host error enum `WasmPluginError` (`src/host/src/errors.rs`). -/
inductive WasmPluginError where
  | WasmerCompileError : WasmPluginError
  | WasmerInstantiationError : WasmPluginError
  | WasmerRuntimeError : WasmPluginError
  | IoError : WasmPluginError
  | SerializationError : WasmPluginError
  | DeserializationError : WasmPluginError
deriving Repr, DecidableEq

/-! ## MessageBuffer reads (`src/host/src/lib.rs` lines 652-673)

Guest linear memory is a byte array; `MessageBuffer::read_message` builds a
`len`-byte vector and copies `data[ptr..ptr + len]` into it.  Rust slice
indexing checks the range against the slice's length and unwinds when it is
exceeded, so the embedded read yields `panic` exactly when
`ptr + len > memory.length`, and never touches a byte outside the memory. -/

/-- Embeds `MessageBuffer::read_message`: copy `len` bytes starting at `ptr`
out of guest memory; unwinds when the range exceeds the memory's current
size. -/
def readMessage (memory : List Nat) (ptr len : Nat) : PanicOr (List Nat) :=
  if ptr + len ≤ memory.length then
    PanicOr.ok ((memory.drop ptr).take len)
  else
    PanicOr.panic

/-- Embeds `MessageBuffer::read_message_from_fat_pointer`: unpack the locator
and copy `data[fat_ptr.ptr() .. fat_ptr.ptr() + fat_ptr.len()]`. -/
def readMessageFromFatPointer (memory : List Nat) (fatPtr : Nat) :
    PanicOr (List Nat) :=
  if hostPtr fatPtr + hostLen fatPtr ≤ memory.length then
    PanicOr.ok ((memory.drop (hostPtr fatPtr)).take (hostLen fatPtr))
  else
    PanicOr.panic

/-! ## Plugin instance state and the Dynamic message-buffer scheme

The host's `WasmPluginInner` holds the wasmer `Instance` (its exports and its
linear memory) and the instance-wide garbage log `Arc<Mutex<Vec<FatPointer>>>`
shared with every import wrapper.  The embedding keeps the export names, the
linear memory, the garbage log, and additionally records every
`free_message_buffer` invocation so that release operations can be counted. -/

/-- State of a loaded plugin instance visible to the calling convention. -/
structure PluginInstance where
  /-- Names of the functions the guest module exports. -/
  exports : List String
  /-- The guest's linear memory, as the byte array the host views. -/
  memory : List Nat
  /-- The instance-wide garbage log of pending Dynamic locators. -/
  garbage : List Nat
  /-- Record of every `free_message_buffer(ptr, len)` call issued, in order,
  as packed locators.  This is bookkeeping for the proofs: the source calls
  the guest deallocator once per entry. -/
  released : List Nat
deriving Repr, DecidableEq

/-- Writes `message` into `memory` starting at byte `ptr` (callers establish
that the range is in bounds). -/
def memWrite (memory : List Nat) (ptr : Nat) (message : List Nat) : List Nat :=
  memory.take ptr ++ message ++ memory.drop (ptr + message.length)

/-- Embeds `MessageBuffer::write_message` (host lib.rs lines 634-650): take
`len = message.len() as u32`, call the guest allocator export with `len`
receiving a `u32` address, copy the message into
`data[ptr .. ptr + len]` (slice indexing unwinds when the range exceeds the
memory's current size, and `copy_from_slice` unwinds when the `u32` cast
truncated the length), pack `(ptr, len)` into a locator, and push that
locator onto the buffer's garbage vector.  Returns the new memory, the new
garbage vector, and the locator. -/
def writeMessage (alloc : Nat → Nat) (memory : List Nat) (localGarbage : List Nat)
    (message : List Nat) : PanicOr (List Nat × List Nat × Nat) :=
  let len := message.length % 2 ^ 32
  let ptr := alloc len % 2 ^ 32
  if message.length < 2 ^ 32 ∧ ptr + len ≤ memory.length then
    let fp := packFatPointer ptr len
    PanicOr.ok (memWrite memory ptr message, localGarbage ++ [fp], fp)
  else
    PanicOr.panic

/-- Embeds `ImportableFn::call_with_input` / `call_without_input` (and the
`ImportableFnWithContext` twins): the handler's own execution — fetching and
decoding its argument and running the user logic — is abstracted to
`returnMessage`, the serialized bytes of the value the handler returned.
When `size_of::<ReturnType>() > 0` (`hasReturn`), the bytes are staged with
`write_message` and the locator returned as `some`; for a zero-sized return
type nothing is staged and the result is `none`. -/
def callWithInput (hasReturn : Bool) (alloc : Nat → Nat) (memory : List Nat)
    (localGarbage : List Nat) (returnMessage : List Nat) :
    PanicOr (List Nat × List Nat × Option Nat) :=
  if hasReturn then
    match writeMessage alloc memory localGarbage returnMessage with
    | PanicOr.panic => PanicOr.panic
    | PanicOr.ok (m, g, fp) => PanicOr.ok (m, g, some fp)
  else
    PanicOr.ok (memory, localGarbage, none)

/-- Embeds the wrapped import closure built by
`WasmPluginBuilder::import_function_with_context` (host lib.rs lines
239-255) and its `import_function` twin: make a fresh `MessageBuffer` with an
empty local garbage vector, run the handler via `call_with_input`, map the
optional staged locator through `.map(|p| p.0).unwrap_or(0)` (the variant
with no return value returns no locator, which the guest sees as none at
all; it is rendered here as the packed value `0`), and extend the
instance-wide garbage log with the local buffer's garbage. -/
def wrappedImport (hasReturn : Bool) (alloc : Nat → Nat) (inst : PluginInstance)
    (returnMessage : List Nat) : PanicOr (PluginInstance × Nat) :=
  match callWithInput hasReturn alloc inst.memory [] returnMessage with
  | PanicOr.panic => PanicOr.panic
  | PanicOr.ok (m, g, r) =>
      PanicOr.ok ({ inst with memory := m, garbage := inst.garbage ++ g },
        r.getD 0)

/-- Runs the nested host-import invocations performed while the guest
executes a top-level call: each entry gives the wrapper's arity class
(`hasReturn`) and the serialized return message it stages. -/
def runImports (alloc : Nat → Nat) (nested : List (Bool × List Nat))
    (inst : PluginInstance) : PanicOr PluginInstance :=
  match nested with
  | [] => PanicOr.ok inst
  | (hasReturn, msg) :: rest =>
    match wrappedImport hasReturn alloc inst msg with
    | PanicOr.panic => PanicOr.panic
    | PanicOr.ok (inst1, _) => runImports alloc rest inst1

/-- Embeds `WasmPluginInner::call_function_raw` (host lib.rs lines 690-733).
The guest's behaviour during the call is abstracted to the list of
nested import invocations it performs and the result locator `resultFp` its stub
returns.  Steps, in source order: resolve
`wasm_plugin_exported__<fn_name>` among the exports, unwinding when absent
(`unwrap_or_else` with a diverging branch); invoke the stub (running the
nested imports); fetch the result bytes through
`read_message_from_fat_pointer` (after `message_buffer()` re-resolves the
allocator export — a lookup failure there propagates as an error value, its
variant left as `WasmerRuntimeError` since `errors.rs` provides no
conversion for an export-lookup failure and no claim depends on it); drain
the instance garbage log, append the result locator when its length is
nonzero, and when the drained list is nonempty resolve
`free_message_buffer` (unwinding when absent) and call it once per entry. -/
def callFunctionRaw (inst : PluginInstance) (fnName : String)
    (_inputBuffer : Option Nat) (nested : List (Bool × List Nat))
    (alloc : Nat → Nat) (resultFp : Nat) :
    PanicOr (PluginInstance × Except WasmPluginError (List Nat)) :=
  if hostExportedName fnName ∈ inst.exports then
    match runImports alloc nested inst with
    | PanicOr.panic => PanicOr.panic
    | PanicOr.ok inst1 =>
      if "allocate_message_buffer" ∈ inst1.exports then
        match readMessageFromFatPointer inst1.memory resultFp with
        | PanicOr.panic => PanicOr.panic
        | PanicOr.ok result =>
          let garbage := inst1.garbage ++
            (if 0 < hostLen resultFp then [resultFp] else [])
          if garbage.isEmpty then
            PanicOr.ok ({ inst1 with garbage := [] }, Except.ok result)
          else if "free_message_buffer" ∈ inst1.exports then
            PanicOr.ok
              ({ inst1 with
                  garbage := [],
                  released := inst1.released ++ garbage }, Except.ok result)
          else
            PanicOr.panic
      else
        PanicOr.ok (inst1, Except.error WasmPluginError.WasmerRuntimeError)
  else
    PanicOr.panic

/-! ## Serialization codec

The host and guest `Serializable`/`Deserializable` traits
(`src/host/src/serialization.rs`, `src/guest/src/serialization.rs`) delegate
to the build-time-selected codec; under the default `serialize_bincode`
feature that codec is the external `bincode` crate, whose source is not part
of this repository.  The codec itself is therefore modelled from the spec
(§4.1, §3): a compact binary format, total over the supported value shapes —
primitive numbers, strings, ordered sequences, fixed-arity tuples and
named-field records — with fixed-width little-endian integers, a 64-bit
length prefix for strings and sequences, and fields/components concatenated
in declaration order (field names are not serialized; the decoder is driven
by the statically known shape, as serde's is). -/

mutual

/-- Modelled from the spec: shape of a supported value (the statically known
type against which the codec decodes). -/
inductive Ty where
  | u8 : Ty
  | u32 : Ty
  | u64 : Ty
  | i64 : Ty
  | str : Ty
  | seq : Ty → Ty
  | tup : TyList → Ty
  | record : FieldTys → Ty
deriving DecidableEq

/-- Component shapes of a fixed-arity tuple. -/
inductive TyList where
  | nil : TyList
  | cons : Ty → TyList → TyList
deriving DecidableEq

/-- Named-field shapes of a record. -/
inductive FieldTys where
  | nil : FieldTys
  | cons : String → Ty → FieldTys → FieldTys
deriving DecidableEq

end

mutual

/-- Modelled from the spec: a value of a supported shape.  A string is
carried as its byte sequence. -/
inductive Value where
  | u8 : Nat → Value
  | u32 : Nat → Value
  | u64 : Nat → Value
  | i64 : Int → Value
  | str : List Nat → Value
  | seq : ValueList → Value
  | tup : ValueList → Value
  | record : FieldVals → Value
deriving DecidableEq

/-- Elements of a sequence or components of a tuple. -/
inductive ValueList where
  | nil : ValueList
  | cons : Value → ValueList → ValueList
deriving DecidableEq

/-- Named fields of a record value. -/
inductive FieldVals where
  | nil : FieldVals
  | cons : String → Value → FieldVals → FieldVals
deriving DecidableEq

end

/-- Number of elements in a `ValueList`. -/
def ValueList.length : ValueList → Nat
  | ValueList.nil => 0
  | ValueList.cons _ vs => vs.length + 1

mutual

/-- Typing judgment: `v` is a well-formed value of shape `t` (its machine
integers in range, its bytes genuine bytes, lengths representable in the
64-bit length prefix, its structure matching `t` pointwise). -/
def Value.hasTy : Value → Ty → Bool
  | Value.u8 n, Ty.u8 => n < 2 ^ 8
  | Value.u32 n, Ty.u32 => n < 2 ^ 32
  | Value.u64 n, Ty.u64 => n < 2 ^ 64
  | Value.i64 i, Ty.i64 => -2 ^ 63 ≤ i ∧ i < 2 ^ 63
  | Value.str s, Ty.str => s.all (· < 2 ^ 8) ∧ s.length < 2 ^ 64
  | Value.seq vs, Ty.seq t => vs.allTy t ∧ vs.length < 2 ^ 64
  | Value.tup vs, Ty.tup ts => vs.tysMatch ts
  | Value.record fs, Ty.record fts => fs.fieldsMatch fts
  | _, _ => false

/-- Every element has shape `t`. -/
def ValueList.allTy : ValueList → Ty → Bool
  | ValueList.nil, _ => true
  | ValueList.cons v vs, t => v.hasTy t && vs.allTy t

/-- Tuple components match the component shapes pointwise. -/
def ValueList.tysMatch : ValueList → TyList → Bool
  | ValueList.nil, TyList.nil => true
  | ValueList.cons v vs, TyList.cons t ts => v.hasTy t && vs.tysMatch ts
  | _, _ => false

/-- Record fields match the field shapes pointwise, names included. -/
def FieldVals.fieldsMatch : FieldVals → FieldTys → Bool
  | FieldVals.nil, FieldTys.nil => true
  | FieldVals.cons n v fs, FieldTys.cons n' t fts =>
      n = n' && v.hasTy t && fs.fieldsMatch fts
  | _, _ => false

end

/-- Little-endian fixed-width encoding of `n` on `width` bytes. -/
def encodeFixed : Nat → Nat → List Nat
  | 0, _ => []
  | w + 1, n => n % 2 ^ 8 :: encodeFixed w (n / 2 ^ 8)

/-- Little-endian fixed-width decoding of `width` bytes. -/
def decodeFixed : Nat → List Nat → Option (Nat × List Nat)
  | 0, data => some (0, data)
  | _ + 1, [] => none
  | w + 1, b :: rest =>
    match decodeFixed w rest with
    | none => none
    | some (n, r) => some (b + 2 ^ 8 * n, r)

/-- Two's-complement image of an `i64` in `[0, 2 ^ 64)`. -/
def i64ToNat (i : Int) : Nat := (i % (2 ^ 64 : Int)).toNat

/-- Signed interpretation of a 64-bit two's-complement word. -/
def natToI64 (n : Nat) : Int := if n < 2 ^ 63 then (n : Int) else (n : Int) - 2 ^ 64

mutual

/-- Modelled from the spec: `encode(value) -> bytes`.  Fixed-width
little-endian integers; strings and sequences carry a 64-bit length prefix;
tuple components and record fields are concatenated in order, names not
serialized. -/
def Value.encode : Value → List Nat
  | Value.u8 n => encodeFixed 1 n
  | Value.u32 n => encodeFixed 4 n
  | Value.u64 n => encodeFixed 8 n
  | Value.i64 i => encodeFixed 8 (i64ToNat i)
  | Value.str s => encodeFixed 8 s.length ++ s
  | Value.seq vs => encodeFixed 8 vs.length ++ vs.encodeAll
  | Value.tup vs => vs.encodeAll
  | Value.record fs => fs.encodeAll

/-- Concatenated encodings of the elements. -/
def ValueList.encodeAll : ValueList → List Nat
  | ValueList.nil => []
  | ValueList.cons v vs => v.encode ++ vs.encodeAll

/-- Concatenated encodings of the field values. -/
def FieldVals.encodeAll : FieldVals → List Nat
  | FieldVals.nil => []
  | FieldVals.cons _ v fs => v.encode ++ fs.encodeAll

end

mutual

/-- Modelled from the spec: `decode(bytes) -> value`, driven by the
statically known shape; yields the decoded value and the remaining bytes, or
`none` on malformed or truncated input. -/
def decodeValue : Ty → List Nat → Option (Value × List Nat)
  | Ty.u8, data =>
    match decodeFixed 1 data with
    | none => none
    | some (n, r) => some (Value.u8 n, r)
  | Ty.u32, data =>
    match decodeFixed 4 data with
    | none => none
    | some (n, r) => some (Value.u32 n, r)
  | Ty.u64, data =>
    match decodeFixed 8 data with
    | none => none
    | some (n, r) => some (Value.u64 n, r)
  | Ty.i64, data =>
    match decodeFixed 8 data with
    | none => none
    | some (n, r) => some (Value.i64 (natToI64 n), r)
  | Ty.str, data =>
    match decodeFixed 8 data with
    | none => none
    | some (len, r) =>
      if len ≤ r.length then some (Value.str (r.take len), r.drop len) else none
  | Ty.seq t, data =>
    match decodeFixed 8 data with
    | none => none
    | some (count, r) =>
      match decodeCount t count r with
      | none => none
      | some (vs, r') => some (Value.seq vs, r')
  | Ty.tup ts, data =>
    match decodeTys ts data with
    | none => none
    | some (vs, r) => some (Value.tup vs, r)
  | Ty.record fts, data =>
    match decodeFields fts data with
    | none => none
    | some (fs, r) => some (Value.record fs, r)
termination_by t _ => (sizeOf t, 0, 0)

/-- Decode `count` consecutive values of shape `t`. -/
def decodeCount : Ty → Nat → List Nat → Option (ValueList × List Nat)
  | _, 0, data => some (ValueList.nil, data)
  | t, n + 1, data =>
    match decodeValue t data with
    | none => none
    | some (v, r) =>
      match decodeCount t n r with
      | none => none
      | some (vs, r') => some (ValueList.cons v vs, r')
termination_by t n _ => (sizeOf t, 1, n)

/-- Decode tuple components in order. -/
def decodeTys : TyList → List Nat → Option (ValueList × List Nat)
  | TyList.nil, data => some (ValueList.nil, data)
  | TyList.cons t ts, data =>
    match decodeValue t data with
    | none => none
    | some (v, r) =>
      match decodeTys ts r with
      | none => none
      | some (vs, r') => some (ValueList.cons v vs, r')
termination_by ts _ => (sizeOf ts, 0, 0)

/-- Decode record fields in order, re-attaching the statically known names. -/
def decodeFields : FieldTys → List Nat → Option (FieldVals × List Nat)
  | FieldTys.nil, data => some (FieldVals.nil, data)
  | FieldTys.cons n t fts, data =>
    match decodeValue t data with
    | none => none
    | some (v, r) =>
      match decodeFields fts r with
      | none => none
      | some (fs, r') => some (FieldVals.cons n v fs, r')
termination_by fts _ => (sizeOf fts, 0, 0)

end

/-- Embeds the host `Serializable::serialize` under `serialize_bincode`:
`bincode::serialize(self).map_err(|_| SerializationError)`; the modelled
codec is total on supported shapes, so the error branch is vacuous. -/
def serializeHost (v : Value) : Except WasmPluginError (List Nat) :=
  Except.ok v.encode

/-- Embeds the host `Deserializable::deserialize` under `serialize_bincode`:
`bincode::deserialize(data).map_err(|_| DeserializationError)` (trailing
bytes after the decoded value are ignored, as `bincode::deserialize` from a
slice ignores them). -/
def deserializeHost (t : Ty) (data : List Nat) : Except WasmPluginError Value :=
  match decodeValue t data with
  | some (v, _) => Except.ok v
  | none => Except.error WasmPluginError.DeserializationError

/-! ## Top-level host-initiated calls (`src/host/src/lib.rs` lines 736-775) -/

/-- Embeds `WasmPlugin::call_function`: run `call_function_raw` with no input
buffer, then `ReturnType::deserialize(&buff)`. -/
def callFunction (t : Ty) (inst : PluginInstance) (fnName : String)
    (nested : List (Bool × List Nat)) (alloc : Nat → Nat) (resultFp : Nat) :
    PanicOr (PluginInstance × Except WasmPluginError Value) :=
  match callFunctionRaw inst fnName none nested alloc resultFp with
  | PanicOr.panic => PanicOr.panic
  | PanicOr.ok (inst1, Except.error e) => PanicOr.ok (inst1, Except.error e)
  | PanicOr.ok (inst1, Except.ok buff) =>
    PanicOr.ok (inst1, deserializeHost t buff)

/-- Embeds `WasmPlugin::call_function_with_argument`: serialize the argument,
build a fresh `MessageBuffer` through `message_buffer()` (re-resolving the
allocator export; a lookup failure propagates as an error value as in
`call_function_raw`), stage the serialized argument with `write_message`
(which pushes the argument locator onto that buffer's local garbage vector),
run `call_function_raw` with the argument locator, then `drop(buffer)` —
discarding the local garbage vector without transferring it to the
instance-wide log — and deserialize the result.  The locator of the staged
argument buffer is returned alongside so its fate can be stated. -/
def callFunctionWithArgument (t : Ty) (inst : PluginInstance) (fnName : String)
    (arg : Value) (nested : List (Bool × List Nat)) (alloc : Nat → Nat)
    (resultFp : Nat) :
    PanicOr (PluginInstance × Except WasmPluginError Value × Nat) :=
  match serializeHost arg with
  | Except.error e => PanicOr.ok (inst, Except.error e, 0)
  | Except.ok message =>
    if "allocate_message_buffer" ∈ inst.exports then
      match writeMessage alloc inst.memory [] message with
      | PanicOr.panic => PanicOr.panic
      | PanicOr.ok (memory1, _localGarbage, argFp) =>
        match callFunctionRaw { inst with memory := memory1 } fnName
            (some argFp) nested alloc resultFp with
        | PanicOr.panic => PanicOr.panic
        | PanicOr.ok (inst2, Except.error e) =>
            PanicOr.ok (inst2, Except.error e, argFp)
        | PanicOr.ok (inst2, Except.ok buff) =>
            PanicOr.ok (inst2, deserializeHost t buff, argFp)
    else
      PanicOr.ok (inst, Except.error WasmPluginError.WasmerRuntimeError, 0)

/-! ## The Static buffer scheme

Modelled from the spec: the Static lifecycle scheme (§3, §4.2) — "a single
fixed-capacity region at a build-time-known address; capacity is a
compile-time constant", where `stage` "copies into the fixed region at
offset 0, length = `bytes.len()`; fails with `BufferOverflow` if
`bytes.len()` exceeds the fixed capacity" — is absent from the code under
`src/`, which implements only the Dynamic allocator scheme, and
`src/host/src/errors.rs` has no `BufferOverflow` variant; the scheme is
embedded here from the spec's words. -/

/-- Modelled from the spec: outcome of staging a message into the fixed
Static region. -/
inductive StaticStageResult where
  | bufferOverflow : StaticStageResult
  | staged : List Nat → Nat → StaticStageResult
deriving Repr, DecidableEq

/-- Modelled from the spec: Static-mode `stage(bytes)` — copy the message
into the fixed-capacity region at offset 0 when it fits, returning the
updated region and the locator `(0, bytes.len())`; fail with
`BufferOverflow`, leaving the region untouched, when it does not. -/
def stageStatic (capacity : Nat) (region : List Nat) (message : List Nat) :
    StaticStageResult :=
  if message.length ≤ capacity then
    StaticStageResult.staged (memWrite region 0 message)
      (packFatPointer 0 message.length)
  else
    StaticStageResult.bufferOverflow

/-! ## Helper lemmas -/

/-- Appending a fixed prefix to a string is injective. -/
theorem string_append_cancel_iff (p a b : String) : p ++ a = p ++ b ↔ a = b := by
  constructor
  · intro h
    have h2 : (p ++ a).data = (p ++ b).data := by rw [h]
    simp [String.data_append] at h2
    exact String.ext h2
  · intro h; rw [h]

/-! ## Claim theorems -/

/-- C10: packing 32-bit values `(p, l)` into a FatPointer with `set_ptr` then
`set_len` and reading them back with `ptr`/`len` yields exactly `(p, l)`; the
address occupies bits 0-31 and the length bits 32-63 of the packed word
(`packed = p + l * 2 ^ 32`); the guest-side bitfield operations coincide with
the host-side ones on every word; and the packed value `0` denotes address
`0` with length `0`. -/
theorem fatPointer_pack_roundtrip (p l : Nat) (hp : p < 2 ^ 32)
    (hl : l < 2 ^ 32) :
    hostPtr (packFatPointer p l) = p ∧ hostLen (packFatPointer p l) = l ∧
    packFatPointer p l = p + l * 2 ^ 32 ∧
    guestPtr (packFatPointer p l) = p ∧ guestLen (packFatPointer p l) = l ∧
    guestSetLen (guestSetPtr 0 p) l = packFatPointer p l ∧
    (∀ v x : Nat, guestPtr v = hostPtr v ∧ guestLen v = hostLen v ∧
      guestSetPtr v x = hostSetPtr v x ∧ guestSetLen v x = hostSetLen v x) ∧
    hostPtr 0 = 0 ∧ hostLen 0 = 0 := by
  unfold packFatPointer hostSetLen hostSetPtr hostPtr hostLen guestPtr
    guestLen guestSetPtr guestSetLen
  refine ⟨by omega, by omega, by omega, by omega, by omega, by omega,
    fun v x => ⟨rfl, rfl, rfl, rfl⟩, by omega, by omega⟩

/-- Witness for C10 at the concrete pair `(7, 9)`. -/
theorem fatPointer_pack_roundtrip_witness :
    hostPtr (packFatPointer 7 9) = 7 ∧ hostLen (packFatPointer 7 9) = 9 :=
  ⟨(fatPointer_pack_roundtrip 7 9 (by norm_num) (by norm_num)).1,
   (fatPointer_pack_roundtrip 7 9 (by norm_num) (by norm_num)).2.1⟩

/-- C9 counterexample: the fixed mangling is not `exported__<name>` — the
host dispatcher resolves `hello` under `wasm_plugin_exported__hello`, which
differs from `exported__hello`. -/
theorem mangling_literal_counterexample :
    hostExportedName "hello" ≠ "exported__hello" := by decide

/-- C9 as amended: for every logical function name the guest-side generator's
adapter name and the host dispatcher's lookup name coincide under the fixed
mangling `wasm_plugin_exported__<name>` (and symmetrically
`wasm_plugin_imported__<name>` for host-registered imports), and each
mangling is injective, so a host call to `name` invokes precisely the
adapter generated for `name`. -/
theorem mangling_consistent (n1 n2 : String) :
    hostExportedName n1 = guestExportedName n1 ∧
    hostImportedName n1 = guestImportedName n1 ∧
    hostExportedName n1 = "wasm_plugin_exported__" ++ n1 ∧
    hostImportedName n1 = "wasm_plugin_imported__" ++ n1 ∧
    (hostExportedName n1 = hostExportedName n2 ↔ n1 = n2) ∧
    (hostImportedName n1 = hostImportedName n2 ↔ n1 = n2) ∧
    (guestExportedName n1 = guestExportedName n2 ↔ n1 = n2) ∧
    (guestImportedName n1 = guestImportedName n2 ↔ n1 = n2) :=
  ⟨rfl, rfl, rfl, rfl,
   string_append_cancel_iff _ n1 n2, string_append_cancel_iff _ n1 n2,
   string_append_cancel_iff _ n1 n2, string_append_cancel_iff _ n1 n2⟩

/-- Witness for C9 at the concrete names `shout` and `echo`. -/
theorem mangling_consistent_witness :
    hostExportedName "shout" = guestExportedName "shout" ∧
    ("shout" = "echo" → hostExportedName "shout" = hostExportedName "echo") :=
  ⟨(mangling_consistent "shout" "echo").1,
   fun h => (mangling_consistent "shout" "echo").2.2.2.2.1.mpr h⟩

/-- C4 counterexample: an out-of-range fetch does not return an error value —
reading one byte from an empty guest memory unwinds (the Rust slice indexing
aborts the call), it does not yield a result. -/
theorem fetch_oob_counterexample : readMessage [] 0 1 = PanicOr.panic := by
  decide

/-- C4 as amended: fetch is bounds-checked but its failure mode is an unwind,
not a returned error — whenever `ptr + len` exceeds the memory's current
size, `read_message` unwinds (no out-of-bounds byte is ever read); when the
range fits, it returns exactly the `len` bytes of memory starting at `ptr`;
and `read_message_from_fat_pointer` behaves as `read_message` on the
unpacked locator. -/
theorem fetch_bounds_checked (memory : List Nat) (ptr len : Nat) :
    (memory.length < ptr + len → readMessage memory ptr len = PanicOr.panic) ∧
    (ptr + len ≤ memory.length →
      readMessage memory ptr len = PanicOr.ok ((memory.drop ptr).take len) ∧
      ((memory.drop ptr).take len).length = len) ∧
    (∀ fatPtr : Nat, readMessageFromFatPointer memory fatPtr =
      readMessage memory (hostPtr fatPtr) (hostLen fatPtr)) := by
  refine ⟨fun h => ?_, fun h => ⟨?_, ?_⟩, fun fatPtr => ?_⟩
  · simp [readMessage]; omega
  · simp [readMessage, h]
  · simp [List.length_take, List.length_drop]; omega
  · simp [readMessage, readMessageFromFatPointer]

/-- Witness for C4 at concrete memory `[3, 4, 5]`: an in-range read returns
the requested bytes and an out-of-range read unwinds. -/
theorem fetch_bounds_checked_witness :
    readMessage [3, 4, 5] 1 2 = PanicOr.ok [4, 5] ∧
    readMessage [3, 4, 5] 2 2 = PanicOr.panic := by
  constructor
  · have h := ((fetch_bounds_checked [3, 4, 5] 1 2).2.1 (by norm_num)).1
    simpa using h
  · exact (fetch_bounds_checked [3, 4, 5] 2 2).1 (by norm_num)

/-- C5 counterexample: calling a function the guest does not export does not
return a catchable error value — on an instance exporting nothing, the
dispatcher unwinds (`unwrap_or_else` with an unconditional diverging
branch). -/
theorem function_not_found_counterexample :
    callFunctionRaw { exports := [], memory := [], garbage := [], released := [] }
      "hello" none [] (fun _ => 0) 0 = PanicOr.panic := by
  unfold callFunctionRaw
  simp

/-- C5 as amended: whenever the mangled name is absent from the guest's
exports, `call_function_raw` unwinds with its distinct diverging branch
before any guest code runs — it neither returns an error value nor exhibits
undefined behavior. -/
theorem function_not_found_panics (inst : PluginInstance) (fnName : String)
    (input : Option Nat) (nested : List (Bool × List Nat)) (alloc : Nat → Nat)
    (resultFp : Nat) (h : hostExportedName fnName ∉ inst.exports) :
    callFunctionRaw inst fnName input nested alloc resultFp = PanicOr.panic := by
  unfold callFunctionRaw
  simp [h]

/-- Witness for C5 at a concrete instance exporting only unrelated names. -/
theorem function_not_found_panics_witness :
    callFunctionRaw
      { exports := ["allocate_message_buffer", "free_message_buffer",
          "wasm_plugin_exported__echo"],
        memory := [], garbage := [], released := [] }
      "hello" none [] (fun _ => 0) 0 = PanicOr.panic :=
  function_not_found_panics _ "hello" none [] (fun _ => 0) 0 (by decide)

/-- C7: staging a message whose byte length exceeds the fixed Static buffer
capacity fails with `BufferOverflow` and performs no out-of-bounds write —
when the message fits, the staged region still has exactly the fixed
capacity and the bytes beyond the message are untouched. -/
theorem static_overflow_guard (capacity : Nat) (region message : List Nat)
    (hcap : region.length = capacity) :
    (capacity < message.length →
      stageStatic capacity region message = StaticStageResult.bufferOverflow) ∧
    (message.length ≤ capacity →
      stageStatic capacity region message =
        StaticStageResult.staged (message ++ region.drop message.length)
          (packFatPointer 0 message.length) ∧
      (message ++ region.drop message.length).length = capacity ∧
      (message ++ region.drop message.length).drop message.length =
        region.drop message.length) := by
  constructor
  · intro h
    simp [stageStatic]
    omega
  · intro h
    refine ⟨?_, ?_, ?_⟩
    · simp [stageStatic, h, memWrite]
    · simp [List.length_append, List.length_drop]; omega
    · exact List.drop_left message (region.drop message.length)

/-- Witness for C7: a 2-byte region overflows on a 3-byte message and stages
a 1-byte message in place. -/
theorem static_overflow_guard_witness :
    stageStatic 2 [0, 0] [1, 2, 3] = StaticStageResult.bufferOverflow ∧
    stageStatic 2 [0, 0] [9] =
      StaticStageResult.staged [9, 0] (packFatPointer 0 1) := by
  constructor
  · exact (static_overflow_guard 2 [0, 0] [1, 2, 3] (by norm_num)).1 (by norm_num)
  · have h := ((static_overflow_guard 2 [0, 0] [9] (by norm_num)).2 (by norm_num)).1
    simpa using h

/-- Little-endian fixed-width decoding inverts encoding for in-range values. -/
theorem decodeFixed_encodeFixed (w n : Nat) (rest : List Nat)
    (h : n < 2 ^ (8 * w)) :
    decodeFixed w (encodeFixed w n ++ rest) = some (n, rest) := by
  induction w generalizing n with
  | zero =>
    simp [encodeFixed, decodeFixed]
    omega
  | succ w ih =>
    have hpow : 2 ^ (8 * (w + 1)) = 2 ^ (8 * w) * 2 ^ 8 := by ring
    rw [hpow] at h
    have hlt : n / 2 ^ 8 < 2 ^ (8 * w) :=
      (Nat.div_lt_iff_lt_mul (by norm_num)).mpr h
    simp only [encodeFixed, List.cons_append, decodeFixed, List.append_eq,
      ih _ hlt, Option.some.injEq, Prod.mk.injEq]
    constructor
    · omega
    · trivial

/-- Two's-complement 64-bit round-trip for in-range signed values. -/
theorem i64_roundtrip (i : Int) (h1 : -2 ^ 63 ≤ i) (h2 : i < 2 ^ 63) :
    natToI64 (i64ToNat i) = i ∧ i64ToNat i < 2 ^ 64 := by
  unfold natToI64 i64ToNat
  constructor
  · split <;> omega
  · omega

mutual

/-- Decoding inverts encoding on every well-typed value, leaving trailing
bytes untouched. -/
theorem decodeValue_encode (v : Value) (t : Ty) (rest : List Nat)
    (h : Value.hasTy v t = true) :
    decodeValue t (Value.encode v ++ rest) = some (v, rest) := by
  cases v with
  | u8 n =>
    cases t <;> simp only [Value.hasTy] at h <;> try exact Bool.noConfusion h
    simp only [Value.encode, decodeValue,
      decodeFixed_encodeFixed 1 n rest (by simpa using h)]
  | u32 n =>
    cases t <;> simp only [Value.hasTy] at h <;> try exact Bool.noConfusion h
    simp only [Value.encode, decodeValue,
      decodeFixed_encodeFixed 4 n rest (by simpa using h)]
  | u64 n =>
    cases t <;> simp only [Value.hasTy] at h <;> try exact Bool.noConfusion h
    simp only [Value.encode, decodeValue,
      decodeFixed_encodeFixed 8 n rest (by simpa using h)]
  | i64 i =>
    cases t <;> simp only [Value.hasTy] at h <;> try exact Bool.noConfusion h
    simp only [decide_eq_true_eq, Bool.and_eq_true] at h
    have hr := i64_roundtrip i h.1 h.2
    simp only [Value.encode, decodeValue,
      decodeFixed_encodeFixed 8 (i64ToNat i) rest (by simpa using hr.2), hr.1]
  | str s =>
    cases t <;> simp only [Value.hasTy] at h <;> try exact Bool.noConfusion h
    simp only [decide_eq_true_eq, Bool.and_eq_true] at h
    simp only [Value.encode, List.append_assoc, decodeValue,
      decodeFixed_encodeFixed 8 s.length (s ++ rest) (by simpa using h.2)]
    rw [if_pos (by simp)]
    simp [List.take_left, List.drop_left]
  | seq vs =>
    cases t <;> simp only [Value.hasTy] at h <;> try exact Bool.noConfusion h
    case seq t =>
      simp only [decide_eq_true_eq, Bool.and_eq_true] at h
      simp only [Value.encode, List.append_assoc, decodeValue,
        decodeFixed_encodeFixed 8 vs.length (ValueList.encodeAll vs ++ rest)
          (by simpa using h.2),
        decodeCount_encodeAll vs t rest h.1]
  | tup vs =>
    cases t <;> simp only [Value.hasTy] at h <;> try exact Bool.noConfusion h
    case tup ts =>
      simp only [Value.encode, decodeValue, decodeTys_encodeAll vs ts rest h]
  | record fs =>
    cases t <;> simp only [Value.hasTy] at h <;> try exact Bool.noConfusion h
    case record fts =>
      simp only [Value.encode, decodeValue, decodeFields_encodeAll fs fts rest h]

/-- Decoding a counted run of elements inverts the concatenated encoding. -/
theorem decodeCount_encodeAll (vs : ValueList) (t : Ty) (rest : List Nat)
    (h : ValueList.allTy vs t = true) :
    decodeCount t vs.length (ValueList.encodeAll vs ++ rest) = some (vs, rest) := by
  cases vs with
  | nil => simp [ValueList.length, ValueList.encodeAll, decodeCount]
  | cons v vs' =>
    simp only [ValueList.allTy, Bool.and_eq_true] at h
    simp only [ValueList.length, ValueList.encodeAll, List.append_assoc,
      decodeCount, decodeValue_encode v t _ h.1,
      decodeCount_encodeAll vs' t rest h.2]

/-- Decoding tuple components inverts the concatenated encoding. -/
theorem decodeTys_encodeAll (vs : ValueList) (ts : TyList) (rest : List Nat)
    (h : ValueList.tysMatch vs ts = true) :
    decodeTys ts (ValueList.encodeAll vs ++ rest) = some (vs, rest) := by
  cases vs with
  | nil =>
    cases ts <;> simp only [ValueList.tysMatch] at h <;> try exact Bool.noConfusion h
    simp [ValueList.encodeAll, decodeTys]
  | cons v vs' =>
    cases ts with
    | nil =>
      simp only [ValueList.tysMatch] at h
      exact Bool.noConfusion h
    | cons t ts' =>
      simp only [ValueList.tysMatch, Bool.and_eq_true] at h
      simp only [ValueList.encodeAll, List.append_assoc, decodeTys,
        decodeValue_encode v t _ h.1, decodeTys_encodeAll vs' ts' rest h.2]

/-- Decoding record fields inverts the concatenated encoding, re-attaching
the statically known field names (which the typing judgment fixes). -/
theorem decodeFields_encodeAll (fs : FieldVals) (fts : FieldTys) (rest : List Nat)
    (h : FieldVals.fieldsMatch fs fts = true) :
    decodeFields fts (FieldVals.encodeAll fs ++ rest) = some (fs, rest) := by
  cases fs with
  | nil =>
    cases fts <;> simp only [FieldVals.fieldsMatch] at h <;> try exact Bool.noConfusion h
    simp [FieldVals.encodeAll, decodeFields]
  | cons n v fs' =>
    cases fts with
    | nil =>
      simp only [FieldVals.fieldsMatch] at h
      exact Bool.noConfusion h
    | cons n' t fts' =>
      simp only [FieldVals.fieldsMatch, Bool.and_eq_true, decide_eq_true_eq] at h
      obtain ⟨⟨hn, hv⟩, hfs⟩ := h
      subst hn
      simp only [FieldVals.encodeAll, List.append_assoc, decodeFields,
        decodeValue_encode v t _ hv, decodeFields_encodeAll fs' fts' rest hfs]

end

/-- C1: for every value of a supported shape (primitive numbers, strings,
ordered sequences, fixed-arity tuples, named-field records), decoding the
bytes produced by encoding it yields the value again under the
build-time-selected codec:
`Deserializable::deserialize(Serializable::serialize(v)) == Ok(v)`. -/
theorem serialization_roundtrip (v : Value) (t : Ty)
    (h : Value.hasTy v t = true) :
    serializeHost v = Except.ok (Value.encode v) ∧
    deserializeHost t (Value.encode v) = Except.ok v := by
  refine ⟨rfl, ?_⟩
  unfold deserializeHost
  rw [show Value.encode v = Value.encode v ++ [] by simp,
    decodeValue_encode v t [] h]

/-- Concrete value exercising every supported shape: a named-field record
holding a string, a sequence of 32-bit numbers, and a pair of a byte and a
negative 64-bit integer. -/
def sampleValue : Value :=
  Value.record (FieldVals.cons "greeting" (Value.str [72, 105])
    (FieldVals.cons "nums"
      (Value.seq (ValueList.cons (Value.u32 1) (ValueList.cons (Value.u32 2)
        (ValueList.cons (Value.u32 43) ValueList.nil))))
      (FieldVals.cons "pair"
        (Value.tup (ValueList.cons (Value.u8 7)
          (ValueList.cons (Value.i64 (-5)) ValueList.nil)))
        FieldVals.nil)))

/-- Shape of `sampleValue`. -/
def sampleTy : Ty :=
  Ty.record (FieldTys.cons "greeting" Ty.str
    (FieldTys.cons "nums" (Ty.seq Ty.u32)
      (FieldTys.cons "pair" (Ty.tup (TyList.cons Ty.u8
        (TyList.cons Ty.i64 TyList.nil))) FieldTys.nil)))

/-- Witness for C1 at `sampleValue`. -/
theorem serialization_roundtrip_witness :
    serializeHost sampleValue = Except.ok (Value.encode sampleValue) ∧
    deserializeHost sampleTy (Value.encode sampleValue) =
      Except.ok sampleValue :=
  serialization_roundtrip sampleValue sampleTy (by
    simp [sampleValue, sampleTy, Value.hasTy, ValueList.allTy,
      ValueList.tysMatch, FieldVals.fieldsMatch, ValueList.length])

/-! ## Helper lemmas about the call machinery -/


/-- A successful `write_message` pushes exactly the returned locator onto
the buffer's garbage vector. -/
theorem writeMessage_ok_effects (alloc : Nat → Nat) (mem lg msg mem' lg' : List Nat)
    (fp : Nat) (h : writeMessage alloc mem lg msg = PanicOr.ok (mem', lg', fp)) :
    lg' = lg ++ [fp] := by
  unfold writeMessage at h
  dsimp only at h
  split at h
  · simp only [PanicOr.ok.injEq, Prod.mk.injEq] at h
    obtain ⟨h1, h2, h3⟩ := h
    subst h2 h3
    rfl
  · exact PanicOr.noConfusion h

/-- A successful import-wrapper invocation appends one locator to the
instance garbage log when the handler has a (non-zero-sized) return, and
none otherwise; exports and the release record are untouched. -/
theorem wrappedImport_ok_effects (hasReturn : Bool) (alloc : Nat → Nat)
    (inst inst' : PluginInstance) (msg : List Nat) (r : Nat)
    (h : wrappedImport hasReturn alloc inst msg = PanicOr.ok (inst', r)) :
    inst'.exports = inst.exports ∧ inst'.released = inst.released ∧
    inst'.garbage.length =
      inst.garbage.length + (if hasReturn then 1 else 0) := by
  unfold wrappedImport at h
  cases hcw : callWithInput hasReturn alloc inst.memory [] msg with
  | panic =>
    rw [hcw] at h
    exact PanicOr.noConfusion h
  | ok res =>
    obtain ⟨m, g, ro⟩ := res
    rw [hcw] at h
    simp only [PanicOr.ok.injEq, Prod.mk.injEq] at h
    obtain ⟨h1, h2⟩ := h
    subst h1
    unfold callWithInput at hcw
    cases hasReturn with
    | false =>
      simp only [Bool.false_eq_true, if_false, PanicOr.ok.injEq,
        Prod.mk.injEq] at hcw
      obtain ⟨-, hg, -⟩ := hcw
      subst hg
      simp
    | true =>
      simp only [eq_self_iff_true, if_true] at hcw
      cases hwm : writeMessage alloc inst.memory [] msg with
      | panic =>
        rw [hwm] at hcw
        exact PanicOr.noConfusion hcw
      | ok res2 =>
        obtain ⟨m2, g2, fp2⟩ := res2
        rw [hwm] at hcw
        simp only [PanicOr.ok.injEq, Prod.mk.injEq] at hcw
        obtain ⟨-, hg, -⟩ := hcw
        subst hg
        have hw := writeMessage_ok_effects alloc inst.memory [] msg m2 g2 fp2 hwm
        subst hw
        simp

/-- Running the nested import invocations of a call grows the instance
garbage log by one locator per invocation with a staged return, and touches
neither the exports nor the release record. -/
theorem runImports_ok_effects (alloc : Nat → Nat) (nested : List (Bool × List Nat))
    (inst inst1 : PluginInstance)
    (h : runImports alloc nested inst = PanicOr.ok inst1) :
    inst1.exports = inst.exports ∧ inst1.released = inst.released ∧
    inst1.garbage.length =
      inst.garbage.length + (nested.filter (fun p => p.1)).length := by
  induction nested generalizing inst with
  | nil =>
    unfold runImports at h
    injection h with h1
    subst h1
    simp
  | cons p rest ih =>
    obtain ⟨hasReturn, msg⟩ := p
    unfold runImports at h
    cases hw : wrappedImport hasReturn alloc inst msg with
    | panic =>
      rw [hw] at h
      exact PanicOr.noConfusion h
    | ok res =>
      obtain ⟨instm, r⟩ := res
      rw [hw] at h
      have he := wrappedImport_ok_effects hasReturn alloc inst instm msg r hw
      have hrest := ih instm h
      refine ⟨hrest.1.trans he.1, hrest.2.1.trans he.2.1, ?_⟩
      rw [hrest.2.2, he.2.2]
      cases hasReturn <;> simp [List.filter] <;> omega

/-- Characterization of a successful `call_function_raw`: the result bytes
are fetched from the result locator's range, the drained garbage log plus
the result locator (when its length is nonzero) is released, and the
instance garbage log ends empty. -/
theorem callFunctionRaw_ok (inst inst1 : PluginInstance) (fnName : String)
    (input : Option Nat) (nested : List (Bool × List Nat)) (alloc : Nat → Nat)
    (resultFp : Nat)
    (hname : hostExportedName fnName ∈ inst.exports)
    (hrun : runImports alloc nested inst = PanicOr.ok inst1)
    (halloc : "allocate_message_buffer" ∈ inst1.exports)
    (hfree : "free_message_buffer" ∈ inst1.exports)
    (hread : hostPtr resultFp + hostLen resultFp ≤ inst1.memory.length) :
    callFunctionRaw inst fnName input nested alloc resultFp =
      PanicOr.ok
        ({ inst1 with
            garbage := [],
            released := inst1.released ++
              (inst1.garbage ++
                (if 0 < hostLen resultFp then [resultFp] else [])) },
          Except.ok
            ((inst1.memory.drop (hostPtr resultFp)).take (hostLen resultFp))) := by
  unfold callFunctionRaw
  rw [if_pos hname, hrun]
  dsimp only
  rw [if_pos halloc]
  unfold readMessageFromFatPointer
  rw [if_pos hread]
  dsimp only
  by_cases hg : (inst1.garbage ++
      (if 0 < hostLen resultFp then [resultFp] else [])) = []
  · rw [if_pos (by simp [hg])]
    have h1 : inst1.garbage = [] := by
      rcases List.append_eq_nil.mp hg with ⟨h1, -⟩
      exact h1
    simp [hg, h1]
    cases inst1
    simp_all
  · rw [if_neg (by simpa using hg)]
    rw [if_pos hfree]

/-- Counting the staged-return invocations in an all-staging list. -/
theorem filter_map_true_length (msgs : List (List Nat)) :
    ((msgs.map (fun m => ((true : Bool), m))).filter (fun p => p.1)).length =
      msgs.length := by
  induction msgs with
  | nil => rfl
  | cons m ms ih => simp [List.filter, ih]

/-- C2: for every top-level host-initiated call (`call_function` or
`call_function_with_argument`) during which `N` nested host-import
invocations each stage one Dynamic buffer, exactly `N` release operations
occur, plus one more if the call's own result locator had nonzero length;
and the instance's garbage log is empty immediately after the top-level
call returns. -/
theorem garbage_accounting :
    (∀ (t : Ty) (inst inst1 : PluginInstance) (fnName : String)
        (msgs : List (List Nat)) (alloc : Nat → Nat) (resultFp : Nat),
      inst.garbage = [] →
      hostExportedName fnName ∈ inst.exports →
      runImports alloc (msgs.map (fun m => (true, m))) inst = PanicOr.ok inst1 →
      "allocate_message_buffer" ∈ inst1.exports →
      "free_message_buffer" ∈ inst1.exports →
      hostPtr resultFp + hostLen resultFp ≤ inst1.memory.length →
      ∃ inst2 res,
        callFunction t inst fnName (msgs.map (fun m => (true, m))) alloc
            resultFp = PanicOr.ok (inst2, res) ∧
        inst2.garbage = [] ∧
        inst2.released.length =
          inst.released.length + msgs.length +
            (if 0 < hostLen resultFp then 1 else 0)) ∧
    (∀ (t : Ty) (inst inst1 : PluginInstance) (fnName : String) (arg : Value)
        (msgs : List (List Nat)) (alloc : Nat → Nat) (resultFp : Nat)
        (memory1 lg : List Nat) (argFp : Nat),
      inst.garbage = [] →
      "allocate_message_buffer" ∈ inst.exports →
      writeMessage alloc inst.memory [] (Value.encode arg) =
        PanicOr.ok (memory1, lg, argFp) →
      hostExportedName fnName ∈ inst.exports →
      runImports alloc (msgs.map (fun m => (true, m)))
        { inst with memory := memory1 } = PanicOr.ok inst1 →
      "allocate_message_buffer" ∈ inst1.exports →
      "free_message_buffer" ∈ inst1.exports →
      hostPtr resultFp + hostLen resultFp ≤ inst1.memory.length →
      ∃ inst2 res,
        callFunctionWithArgument t inst fnName arg
            (msgs.map (fun m => (true, m))) alloc resultFp =
          PanicOr.ok (inst2, res, argFp) ∧
        inst2.garbage = [] ∧
        inst2.released.length =
          inst.released.length + msgs.length +
            (if 0 < hostLen resultFp then 1 else 0)) := by
  constructor
  · intro t inst inst1 fnName msgs alloc resultFp hTop hname hrun halloc hfree hread
    have hraw := callFunctionRaw_ok inst inst1 fnName none
      (msgs.map (fun m => (true, m))) alloc resultFp hname hrun halloc hfree hread
    have heff := runImports_ok_effects alloc (msgs.map (fun m => (true, m)))
      inst inst1 hrun
    refine ⟨{ inst1 with
        garbage := [],
        released := inst1.released ++
          (inst1.garbage ++ (if 0 < hostLen resultFp then [resultFp] else [])) },
      deserializeHost t
        ((inst1.memory.drop (hostPtr resultFp)).take (hostLen resultFp)),
      ?_, rfl, ?_⟩
    · unfold callFunction
      rw [hraw]
    · simp only [List.length_append]
      rw [heff.2.1, heff.2.2, hTop, filter_map_true_length]
      cases h : decide (0 < hostLen resultFp) <;> simp_all <;> try omega
  · intro t inst inst1 fnName arg msgs alloc resultFp memory1 lg argFp hTop
      halloc0 hwm hname hrun halloc hfree hread
    have hraw := callFunctionRaw_ok { inst with memory := memory1 } inst1 fnName
      (some argFp) (msgs.map (fun m => (true, m))) alloc resultFp hname hrun
      halloc hfree hread
    have heff := runImports_ok_effects alloc (msgs.map (fun m => (true, m)))
      { inst with memory := memory1 } inst1 hrun
    refine ⟨{ inst1 with
        garbage := [],
        released := inst1.released ++
          (inst1.garbage ++ (if 0 < hostLen resultFp then [resultFp] else [])) },
      deserializeHost t
        ((inst1.memory.drop (hostPtr resultFp)).take (hostLen resultFp)),
      ?_, rfl, ?_⟩
    · unfold callFunctionWithArgument
      rw [show serializeHost arg = Except.ok (Value.encode arg) from rfl]
      dsimp only
      rw [if_pos halloc0, hwm]
      dsimp only
      rw [hraw]
    · simp only [List.length_append]
      rw [heff.2.1, heff.2.2]
      simp only [hTop, filter_map_true_length]
      cases h : decide (0 < hostLen resultFp) <;> simp_all <;> try omega

/-- Witness for C2: one nested import invocation and a Dynamic result give
exactly two releases and an empty garbage log. -/
theorem garbage_accounting_witness :
    ∃ inst2 res,
      callFunction Ty.u8
        { exports := ["wasm_plugin_exported__f", "allocate_message_buffer",
            "free_message_buffer"],
          memory := [0, 0, 0, 0], garbage := [], released := [] }
        "f" ([[42]].map (fun m => (true, m))) (fun _ => 0)
        (packFatPointer 1 2) = PanicOr.ok (inst2, res) ∧
      inst2.garbage = [] ∧
      inst2.released.length = 2 :=
  garbage_accounting.1 Ty.u8
    { exports := ["wasm_plugin_exported__f", "allocate_message_buffer",
        "free_message_buffer"],
      memory := [0, 0, 0, 0], garbage := [], released := [] }
    { exports := ["wasm_plugin_exported__f", "allocate_message_buffer",
        "free_message_buffer"],
      memory := [42, 0, 0, 0], garbage := [4294967296], released := [] }
    "f" [[42]] (fun _ => 0) (packFatPointer 1 2)
    rfl (by decide) rfl (by decide) (by decide) (by decide)

/-- C6: for every `call_function`/`call_function_with_argument` invocation
whose fetched result bytes do not decode as the caller-declared return
shape, the call returns `Err(DeserializationError)`; it never returns `Ok`
with a garbage value decoded from mismatched bytes. -/
theorem deserialization_error_on_mismatch :
    (∀ (t : Ty) (inst inst2 : PluginInstance) (fnName : String)
        (nested : List (Bool × List Nat)) (alloc : Nat → Nat) (resultFp : Nat)
        (buff : List Nat),
      callFunctionRaw inst fnName none nested alloc resultFp =
        PanicOr.ok (inst2, Except.ok buff) →
      decodeValue t buff = none →
      callFunction t inst fnName nested alloc resultFp =
        PanicOr.ok (inst2, Except.error WasmPluginError.DeserializationError)) ∧
    (∀ (t : Ty) (inst inst2 : PluginInstance) (fnName : String) (arg : Value)
        (nested : List (Bool × List Nat)) (alloc : Nat → Nat) (resultFp : Nat)
        (buff memory1 lg : List Nat) (argFp : Nat),
      "allocate_message_buffer" ∈ inst.exports →
      writeMessage alloc inst.memory [] (Value.encode arg) =
        PanicOr.ok (memory1, lg, argFp) →
      callFunctionRaw { inst with memory := memory1 } fnName (some argFp)
        nested alloc resultFp = PanicOr.ok (inst2, Except.ok buff) →
      decodeValue t buff = none →
      callFunctionWithArgument t inst fnName arg nested alloc resultFp =
        PanicOr.ok (inst2, Except.error WasmPluginError.DeserializationError,
          argFp)) := by
  constructor
  · intro t inst inst2 fnName nested alloc resultFp buff hraw hdec
    unfold callFunction
    rw [hraw]
    dsimp only
    unfold deserializeHost
    rw [hdec]
  · intro t inst inst2 fnName arg nested alloc resultFp buff memory1 lg argFp
      halloc hwm hraw hdec
    unfold callFunctionWithArgument
    rw [show serializeHost arg = Except.ok (Value.encode arg) from rfl]
    dsimp only
    rw [if_pos halloc, hwm]
    dsimp only
    rw [hraw]
    dsimp only
    unfold deserializeHost
    rw [hdec]

/-- Witness for C6: a one-byte result buffer does not decode as a 32-bit
number and the call surfaces `DeserializationError`. -/
theorem deserialization_error_on_mismatch_witness :
    callFunction Ty.u32
      { exports := ["wasm_plugin_exported__g", "allocate_message_buffer",
          "free_message_buffer"],
        memory := [7], garbage := [], released := [] }
      "g" [] (fun _ => 0) (packFatPointer 0 1) =
      PanicOr.ok
        ({ exports := ["wasm_plugin_exported__g", "allocate_message_buffer",
            "free_message_buffer"],
           memory := [7], garbage := [], released := [packFatPointer 0 1] },
         Except.error WasmPluginError.DeserializationError) :=
  deserialization_error_on_mismatch.1 Ty.u32
    { exports := ["wasm_plugin_exported__g", "allocate_message_buffer",
        "free_message_buffer"],
      memory := [7], garbage := [], released := [] }
    { exports := ["wasm_plugin_exported__g", "allocate_message_buffer",
        "free_message_buffer"],
      memory := [7], garbage := [], released := [packFatPointer 0 1] }
    "g" [] (fun _ => 0) (packFatPointer 0 1) [7] rfl
    (by simp [decodeValue, decodeFixed])

/-- C8: for every boundary function with no return value (zero-sized return
type), the boundary stub produces a zero-length locator (the packed u64
value `0`) and never stages a result buffer; and a zero-length result
locator is never passed to the guest deallocator — the release list gains
exactly the drained garbage log, with no entry for the result. -/
theorem zero_return_locator :
    (∀ (alloc : Nat → Nat) (inst : PluginInstance) (msg : List Nat),
      wrappedImport false alloc inst msg = PanicOr.ok (inst, 0)) ∧
    (∀ (inst inst1 : PluginInstance) (fnName : String) (input : Option Nat)
        (nested : List (Bool × List Nat)) (alloc : Nat → Nat) (resultFp : Nat),
      hostExportedName fnName ∈ inst.exports →
      runImports alloc nested inst = PanicOr.ok inst1 →
      "allocate_message_buffer" ∈ inst1.exports →
      "free_message_buffer" ∈ inst1.exports →
      hostLen resultFp = 0 →
      hostPtr resultFp ≤ inst1.memory.length →
      callFunctionRaw inst fnName input nested alloc resultFp =
        PanicOr.ok
          ({ inst1 with
              garbage := [],
              released := inst1.released ++ inst1.garbage }, Except.ok [])) := by
  constructor
  · intro alloc inst msg
    unfold wrappedImport callWithInput
    simp
  · intro inst inst1 fnName input nested alloc resultFp hname hrun halloc hfree
      hlen hptr
    have h := callFunctionRaw_ok inst inst1 fnName input nested alloc resultFp
      hname hrun halloc hfree (by rw [hlen]; simpa using hptr)
    rw [h]
    simp [hlen]

/-- Witness for C8 at concrete instances: a no-return wrapper yields `0`
and changes nothing; a zero-length result locator triggers no release. -/
theorem zero_return_locator_witness :
    wrappedImport false (fun _ => 0)
      { exports := [], memory := [9], garbage := [], released := [] } [1, 2] =
      PanicOr.ok
        ({ exports := [], memory := [9], garbage := [], released := [] }, 0) ∧
    callFunctionRaw
      { exports := ["wasm_plugin_exported__h", "allocate_message_buffer",
          "free_message_buffer"],
        memory := [], garbage := [], released := [] }
      "h" none [] (fun _ => 0) 0 =
      PanicOr.ok
        ({ exports := ["wasm_plugin_exported__h", "allocate_message_buffer",
              "free_message_buffer"],
           memory := [], garbage := [], released := [] }, Except.ok []) :=
  ⟨zero_return_locator.1 (fun _ => 0)
      { exports := [], memory := [9], garbage := [], released := [] } [1, 2],
   zero_return_locator.2
      { exports := ["wasm_plugin_exported__h", "allocate_message_buffer",
          "free_message_buffer"],
        memory := [], garbage := [], released := [] }
      { exports := ["wasm_plugin_exported__h", "allocate_message_buffer",
          "free_message_buffer"],
        memory := [], garbage := [], released := [] }
      "h" none [] (fun _ => 0) 0 (by decide) rfl (by decide) (by decide)
      (by decide) (by decide)⟩

/-- C3 (the code violates the claim): a concrete
`call_function_with_argument` run in which the staged argument buffer — a
Dynamic allocation with a nonzero-length locator `packFatPointer 0 1` — is
recorded only in the dropped local buffer: after the call returns, the
instance garbage log is empty and the release record is empty, so the
argument buffer was neither logged instance-wide nor ever released. -/
theorem argument_buffer_never_released :
    callFunctionWithArgument Ty.u8
      { exports := ["wasm_plugin_exported__echo", "allocate_message_buffer",
          "free_message_buffer"],
        memory := [0, 0], garbage := [], released := [] }
      "echo" (Value.u8 7) [] (fun _ => 0) 0 =
      PanicOr.ok
        ({ exports := ["wasm_plugin_exported__echo", "allocate_message_buffer",
            "free_message_buffer"],
           memory := [7, 0], garbage := [], released := [] },
         Except.error WasmPluginError.DeserializationError,
         packFatPointer 0 1) ∧
    0 < hostLen (packFatPointer 0 1) := by
  constructor
  · unfold callFunctionWithArgument
    rw [show serializeHost (Value.u8 7) = Except.ok [7] from rfl]
    dsimp only
    rw [if_pos (by decide)]
    rw [show writeMessage (fun _ => 0) [0, 0] [] [7] =
      PanicOr.ok ([7, 0], [packFatPointer 0 1], packFatPointer 0 1) from rfl]
    dsimp only
    rw [show callFunctionRaw
        { exports := ["wasm_plugin_exported__echo", "allocate_message_buffer",
              "free_message_buffer"],
          memory := [7, 0], garbage := [], released := [] }
        "echo" (some (packFatPointer 0 1)) [] (fun _ => 0) 0 =
      PanicOr.ok
        ({ exports := ["wasm_plugin_exported__echo", "allocate_message_buffer",
               "free_message_buffer"],
           memory := [7, 0], garbage := [], released := [] },
          Except.ok []) from rfl]
    dsimp only
    rw [show deserializeHost Ty.u8 [] =
      Except.error WasmPluginError.DeserializationError by
        simp [deserializeHost, decodeValue, decodeFixed]]
  · decide
